import Mathlib

/-!
Verification development for the prediction-serving service in
`src/api/app.py` (FastAPI app serving a pre-trained multi-class
classifier).  The Python pipeline is embedded shallowly: real numbers are
modelled by `ℚ`, Python dicts by association lists with unique keys, and
every fallible step of `evaluate_model` returns an `Except`.  The opaque
pickled artifacts (classifier, scaler) are modelled by function-valued
structures; where their behaviour matters, it enters theorems as an
explicit hypothesis taken from the contracts in the specification.
-/

namespace SfTest

/-- Lookup in a Python dict represented as an association list.
Python dicts have unique keys, so first-match lookup coincides with the
dict's single binding for the key. -/
def dictGet {β : Type} (d : List (String × β)) (k : String) : Option β :=
  match d with
  | [] => none
  | (k1, v) :: rest => if k1 = k then some v else dictGet rest k

/-- Embedding of `reverse_mapping = {v: k for k, v in class_mapping.items()}`
followed by `reverse_mapping[v]` (app.py lines 190-191).  The dict
comprehension lets a later pair with the same value overwrite an earlier
one, so the lookup returns the key of the last pair whose value is `v`;
`none` models the `KeyError` when no pair has value `v`. -/
def reverseLookup (d : List (String × ℕ)) (v : ℕ) : Option String :=
  match d with
  | [] => none
  | (k, v1) :: rest =>
    match reverseLookup rest v with
    | some k1 => some k1
    | none => if v1 = v then some k else none

/-- Lexicographic comparison of character lists by Unicode code point,
the order Python uses to compare strings. -/
def lexLe : List Char → List Char → Bool
  | [], _ => true
  | _ :: _, [] => false
  | a :: as, b :: bs =>
    if a.toNat < b.toNat then true
    else if b.toNat < a.toNat then false
    else lexLe as bs

/-- Python string comparison `a <= b`: lexicographic by code point. -/
def strLe (a b : String) : Bool := lexLe a.data b.data

/-- Embedding of `sorted(class_mapping.keys())` (app.py line 194): the
original class labels in ascending lexicographic string order. -/
def sortedKeys (d : List (String × ℕ)) : List String :=
  List.insertionSort (fun a b => strLe a b = true) (d.map Prod.fst)

/-- Binary maximum on `ℚ`, decided by cross-multiplying numerators and
denominators (the denominator of a `Rat` is positive). -/
def ratLeB (a b : ℚ) : Bool := a.num * (b.den : ℤ) ≤ b.num * (a.den : ℤ)

/-- Larger of two rationals, via `ratLeB`. -/
def ratMax (a b : ℚ) : ℚ := if ratLeB a b then b else a

/-- Embedding of Python `max(iterable)` on a list of numbers
(app.py line 200): `none` models the `ValueError` on an empty sequence. -/
def pyMax (l : List ℚ) : Option ℚ :=
  match l with
  | [] => none
  | x :: xs => some (xs.foldl ratMax x)

/-- Decimal digit accumulator for `pyInt`. -/
def parseDigitsAux : List Char → ℕ → Option ℕ
  | [], acc => some acc
  | c :: cs, acc =>
    if c.isDigit then parseDigitsAux cs (acc * 10 + (c.toNat - 48)) else none

/-- Embedding of Python `int(s)` for a string argument (app.py line 198):
optional surrounding whitespace, an optional single sign, then at least
one decimal digit; `none` models the `ValueError` on anything else.
(Digit-grouping underscores, a rarely used Python extension, are not
modelled; no class label in this development uses them.) -/
def pyInt (s : String) : Option ℤ :=
  match (((s.data.dropWhile (fun c => c.isWhitespace)).reverse.dropWhile
      (fun c => c.isWhitespace)).reverse) with
  | [] => none
  | c :: cs =>
    if c = '-' then
      match cs with
      | [] => none
      | _ => (parseDigitsAux cs 0).map (fun n => -(n : ℤ))
    else if c = '+' then
      match cs with
      | [] => none
      | _ => (parseDigitsAux cs 0).map (fun n => (n : ℤ))
    else (parseDigitsAux (c :: cs) 0).map (fun n => (n : ℤ))

/-- Index of the first occurrence of the maximum value of `l` (0 when `l`
is empty).  This is the specification's tie-break rule: "first encoded
index achieving the maximum". -/
def argmaxFirst (l : List ℚ) : ℕ :=
  match pyMax l with
  | none => 0
  | some m => l.findIdx (fun v => decide (v = m))

/-- Key of the probability mapping holding the maximum value, the first
such key on ties.  This is the specification-side reading of
"`predicted_class` equals the key holding the maximum probability". -/
def firstMaxKey (d : List (String × ℚ)) : Option String :=
  match pyMax (d.map Prod.snd) with
  | none => none
  | some m => (d.find? (fun p => decide (p.2 = m))).map Prod.fst

/-- The opaque trained classifier artifact (`xgboost_model.pkl`).  The
code only calls `model.predict` and `model.predict_proba` on a single
sample, so the artifact is modelled by those two functions. -/
structure Classifier where
  predict : List ℚ → ℕ
  predict_proba : List ℚ → List ℚ

/-- Modelled from the spec: the scaler artifact (`scaler.pkl`) is not in
the repository; per spec §4.3 it is a per-feature center/scale pair. -/
structure ScalerParams where
  center : List ℚ
  scale : List ℚ

/-- The metadata document (`model_metadata.json`): `feature_names` is the
ordered list of feature keys; `class_mapping` is the JSON object mapping
original class label (a JSON key, hence a string) to encoded index,
already decoded from its embedded JSON-string form (app.py line 189). -/
structure Metadata where
  feature_names : List String
  class_mapping : List (String × ℕ)

/-- The loaded artifact triple shared by every request. -/
structure Bundle where
  model : Classifier
  scaler : ScalerParams
  metadata : Metadata

/-- Embedding of the `PredictionOutput` response model (app.py 115-119). -/
structure PredictionOutput where
  predicted_class : ℤ
  prediction_probabilities : List (String × ℚ)
  confidence : ℚ
deriving DecidableEq

/-- Decidable equality for `Except`, so concrete pipeline runs can be
checked by `decide`. -/
instance {ε α : Type} [DecidableEq ε] [DecidableEq α] :
    DecidableEq (Except ε α) := fun x y =>
  match x, y with
  | Except.ok a, Except.ok b =>
    if h : a = b then Decidable.isTrue (by rw [h])
    else Decidable.isFalse (fun hc => h (Except.ok.inj hc))
  | Except.error a, Except.error b =>
    if h : a = b then Decidable.isTrue (by rw [h])
    else Decidable.isFalse (fun hc => h (Except.error.inj hc))
  | Except.ok _, Except.error _ =>
    Decidable.isFalse (fun hc => Except.noConfusion hc)
  | Except.error _, Except.ok _ =>
    Decidable.isFalse (fun hc => Except.noConfusion hc)

/-- The distinct failure causes that can arise inside the inference
pipeline (the Python exceptions raised in `evaluate_model`'s `try`). -/
inductive PipelineError where
  /-- `KeyError` from `data[feat]`: a feature name absent from the record. -/
  | missingFeature (key : String)
  /-- Scaler applied to a vector of the wrong length (spec §4.3). -/
  | dimensionMismatch
  /-- `KeyError` from `reverse_mapping[prediction]`. -/
  | unknownEncodedIndex (idx : ℕ)
  /-- `IndexError` from `prediction_proba[i]` while building `proba_dict`. -/
  | probaIndexOutOfRange
  /-- `ValueError` from `int(original_prediction)`. -/
  | invalidIntLiteral (s : String)
  /-- `ValueError` from `max(prediction_proba)` on an empty sequence. -/
  | emptyProbability
deriving DecidableEq

/-- Errors surfaced by the service boundary: `notReady` is the 503 raised
before touching the worker pool; `predictionError` is the catch-all 500
wrapping any exception from the pipeline. -/
inductive ServiceError where
  | notReady
  | predictionError (cause : PipelineError)
deriving DecidableEq

/-- Embedding of `[data[feat] for feat in feature_names]` (app.py 179):
the record's values in canonical feature order; the first absent name
aborts the comprehension with its `KeyError`. -/
def buildFeatureVector (record : List (String × ℚ)) :
    List String → Except PipelineError (List ℚ)
  | [] => Except.ok []
  | f :: rest =>
    match dictGet record f with
    | none => Except.error (PipelineError.missingFeature f)
    | some v =>
      match buildFeatureVector record rest with
      | Except.error e => Except.error e
      | Except.ok vs => Except.ok (v :: vs)

/-- Modelled from the spec: `scaler.transform` (the scaler pickle is not
in the repository).  Spec §4.3: elementwise `(x - center) / scale`,
failing on a dimension mismatch. -/
def transform (p : ScalerParams) (xs : List ℚ) :
    Except PipelineError (List ℚ) :=
  if xs.length = p.center.length ∧ xs.length = p.scale.length then
    Except.ok (List.zipWith3 (fun x c s => (x - c) / s) xs p.center p.scale)
  else Except.error PipelineError.dimensionMismatch

/-- The body of `evaluate_model`'s `try` block (app.py 173-201), with each
step in the order the Python evaluates it: build the vector, scale,
predict, invert the class mapping, pair the sorted labels with the
probability vector, convert the decoded label with `int`, then take the
maximum probability as confidence. -/
def evaluatePipeline (b : Bundle) (data : List (String × ℚ)) :
    Except PipelineError PredictionOutput :=
  match buildFeatureVector data b.metadata.feature_names with
  | Except.error e => Except.error e
  | Except.ok xs =>
    match transform b.scaler xs with
    | Except.error e => Except.error e
    | Except.ok scaled =>
      match reverseLookup b.metadata.class_mapping (b.model.predict scaled) with
      | none =>
        Except.error (PipelineError.unknownEncodedIndex (b.model.predict scaled))
      | some origLabel =>
        if (sortedKeys b.metadata.class_mapping).length ≤
            (b.model.predict_proba scaled).length then
          match pyInt origLabel with
          | none => Except.error (PipelineError.invalidIntLiteral origLabel)
          | some pc =>
            match pyMax (b.model.predict_proba scaled) with
            | none => Except.error PipelineError.emptyProbability
            | some conf =>
              Except.ok
                { predicted_class := pc,
                  prediction_probabilities :=
                    (sortedKeys b.metadata.class_mapping).zip
                      (b.model.predict_proba scaled),
                  confidence := conf }
        else Except.error PipelineError.probaIndexOutOfRange

/-- Embedding of `evaluate_model` (app.py 163-204): any exception from
the pipeline is caught and converted to the catch-all prediction error. -/
def evaluate_model (b : Bundle) (data : List (String × ℚ)) :
    Except ServiceError PredictionOutput :=
  match evaluatePipeline b data with
  | Except.ok out => Except.ok out
  | Except.error e => Except.error (ServiceError.predictionError e)

/-- The process-wide mutable artifact state: the three globals `model`,
`scaler`, `metadata` of app.py, each `None` until published by the
startup load. -/
structure ServerState where
  model : Option Classifier
  scaler : Option ScalerParams
  metadata : Option Metadata

/-- Readiness as observed by every reader (app.py 233 and 254): all three
components published. -/
def is_ready (s : ServerState) : Bool :=
  s.model.isSome && s.scaler.isSome && s.metadata.isSome

/-- Embedding of the `/health` endpoint (app.py 230-241). -/
def health_check (s : ServerState) : String :=
  match s.model, s.scaler, s.metadata with
  | some _, some _, some _ => "healthy"
  | _, _, _ => "unhealthy"

/-- Embedding of the `/predict` endpoint (app.py 243-267).  The second
component counts the tasks submitted to the worker pool: the not-ready
branch raises the 503 before `run_in_executor` is reached, the ready
branch submits exactly the one `evaluate_model` task. -/
def predict (s : ServerState) (data : List (String × ℚ)) :
    Except ServiceError PredictionOutput × ℕ :=
  match s.model, s.scaler, s.metadata with
  | some m, some sc, some md => (evaluate_model ⟨m, sc, md⟩ data, 1)
  | _, _, _ => (Except.error ServiceError.notReady, 0)

/-! ### The artifact store as a transition system -/

/-- The artifact state before the startup load runs (app.py 21-23). -/
def initialState : ServerState := ⟨none, none, none⟩

/-- Transitions of the process-wide artifact state.  The three `publish`
steps are the successive global assignments inside
`load_model_components` (app.py 150, 151, 154); a load that fails partway
simply stops stepping.  `serve` is any request handled by `/predict`,
`/health` or `/`: these read the globals but never assign them, so the
state is unchanged.  By construction the startup load is the only
mutation of the artifact state. -/
inductive Step : ServerState → ServerState → Prop where
  | publishModel (m : Classifier) :
      Step ⟨none, none, none⟩ ⟨some m, none, none⟩
  | publishScaler (m : Classifier) (sc : ScalerParams) :
      Step ⟨some m, none, none⟩ ⟨some m, some sc, none⟩
  | publishMetadata (m : Classifier) (sc : ScalerParams) (md : Metadata) :
      Step ⟨some m, some sc, none⟩ ⟨some m, some sc, some md⟩
  | serve (s : ServerState) : Step s s

/-- States the process can actually be in. -/
abbrev Reachable (s : ServerState) : Prop :=
  Relation.ReflTransGen Step initialState s

/-! ### The bounded worker pool -/

/-- A worker pool of size 1 draining its queue: each submitted request is
evaluated against the shared read-only bundle, in hand-off order, and its
result is tagged with the identifier of the request that produced it
(app.py 261-263). -/
def workerLoop (b : Bundle) :
    List (ℕ × List (String × ℚ)) →
    List (ℕ × Except ServiceError PredictionOutput) →
    List (ℕ × Except ServiceError PredictionOutput)
  | [], completed => completed.reverse
  | (i, x) :: pending, completed =>
      workerLoop b pending ((i, evaluate_model b x) :: completed)

/-- Results of running every queued request through the pool. -/
def runPool (b : Bundle) (reqs : List (ℕ × List (String × ℚ))) :
    List (ℕ × Except ServiceError PredictionOutput) :=
  workerLoop b reqs []

/-- First name of the list that is absent from the record: the feature
whose lookup `data[feat]` is the one to raise in the comprehension of
app.py line 179. -/
def firstMissing (record : List (String × ℚ)) : List String → Option String
  | [] => none
  | f :: rest =>
    match dictGet record f with
    | none => some f
    | some _ => firstMissing record rest

/-! ### Concrete artifacts used by the concrete runs -/

/-- Shorthand for the probability 3/10. -/
def q3 : ℚ := Rat.mk' 3 10

/-- Shorthand for the probability 7/10. -/
def q7 : ℚ := Rat.mk' 7 10

/-- Classifier that always predicts encoded index 0 with probability
vector `[0.7, 0.3]`; it satisfies the spec contract that `predict`
returns the first index achieving the maximum of `predict_proba`. -/
def cexModel : Classifier := ⟨fun _ => 0, fun _ => [q7, q3]⟩

/-- Bundle whose class mapping is a valid bijection but does not list
the labels in sorted order of their encoded indices: label "1" encodes
to index 1 and label "2" encodes to index 0. -/
def cexBundle : Bundle :=
  ⟨cexModel, ⟨[0], [1]⟩, ⟨["f1"], [("1", 1), ("2", 0)]⟩⟩

/-- A one-feature input record for `cexBundle`. -/
def cexRecord : List (String × ℚ) := [("f1", 0)]

/-- The response the pipeline produces for `cexBundle` on `cexRecord`. -/
def cexOut : PredictionOutput := ⟨2, [("1", q7), ("2", q3)], q7⟩

/-- Classifier that always predicts encoded index 1 with probability
vector `[0.3, 0.7]` (again its `predict` is the first argmax of its
`predict_proba`). -/
def wModel : Classifier := ⟨fun _ => 1, fun _ => [q3, q7]⟩

/-- Identity scaler over two features: center `[0, 0]`, scale `[1, 1]`. -/
def wScaler : ScalerParams := ⟨[0, 0], [1, 1]⟩

/-- The bundle of the spec scenario behind C4: two features, identity
scaler, classifier probabilities `[0.3, 0.7]`, and class mapping
`{"A": 0, "B": 1}`. -/
def c4Bundle : Bundle :=
  ⟨wModel, wScaler, ⟨["f1", "f2"], [("A", 0), ("B", 1)]⟩⟩

/-- Same scenario with integer-parseable labels `{"1": 0, "2": 1}`,
aligned with the sorted order of the labels. -/
def alignedBundle : Bundle :=
  ⟨wModel, wScaler, ⟨["f1", "f2"], [("1", 0), ("2", 1)]⟩⟩

/-- The scenario input `{f1: 1, f2: 2}`. -/
def c4Record : List (String × ℚ) := [("f1", 1), ("f2", 2)]

/-- The response `alignedBundle` produces on `c4Record`. -/
def alignedOut : PredictionOutput := ⟨2, [("1", q3), ("2", q7)], q7⟩

/-- The scaled vector `alignedBundle`'s scaler produces on `c4Record`. -/
def alignedScaled : List ℚ :=
  List.zipWith3 (fun x c s => (x - c) / s) [1, 2] [0, 0] [1, 1]

/-- Bundle whose metadata demands a feature name `fX` that the request
schema never supplies. -/
def c6Bundle : Bundle :=
  ⟨wModel, wScaler, ⟨["f1", "fX"], [("1", 0), ("2", 1)]⟩⟩

/-- A fully published artifact state. -/
def readyState : ServerState :=
  ⟨some wModel, some wScaler, some ⟨["f1", "f2"], [("1", 0), ("2", 1)]⟩⟩

/-! ### Order helpers -/

theorem ratLeB_iff (a b : ℚ) : ratLeB a b = true ↔ a ≤ b := by
  simp [ratLeB, Rat.le_def]

theorem ratMax_eq_max (a b : ℚ) : ratMax a b = max a b := by
  by_cases h : a ≤ b
  · rw [ratMax, if_pos ((ratLeB_iff a b).mpr h), max_eq_right h]
  · rw [ratMax, if_neg (by simp [ratLeB_iff, h]), max_eq_left (le_of_not_le h)]

theorem foldl_ratMax_eq (xs : List ℚ) : ∀ x : ℚ,
    xs.foldl ratMax x = xs.foldl max x := by
  induction xs with
  | nil => intro x; rfl
  | cons y ys ih => intro x; simp only [List.foldl_cons, ratMax_eq_max, ih]

theorem foldl_max_mem (xs : List ℚ) : ∀ x : ℚ, xs.foldl max x ∈ x :: xs := by
  induction xs with
  | nil => intro x; simp
  | cons y ys ih =>
    intro x
    simp only [List.foldl_cons]
    have h := ih (max x y)
    rw [List.mem_cons] at h
    rcases h with h | h
    · rcases max_choice x y with hm | hm <;> rw [h, hm] <;> simp
    · simp [h]

theorem pyMax_mem {l : List ℚ} {m : ℚ} (h : pyMax l = some m) : m ∈ l := by
  cases l with
  | nil => exact absurd h (by simp [pyMax])
  | cons x xs =>
    have hm : xs.foldl ratMax x = m := by
      simpa [pyMax] using h
    rw [foldl_ratMax_eq] at hm
    simpa [hm] using foldl_max_mem xs x

theorem lexLe_total (as : List Char) : ∀ bs : List Char,
    lexLe as bs = true ∨ lexLe bs as = true := by
  induction as with
  | nil => intro bs; left; rfl
  | cons a as2 ih =>
    intro bs
    cases bs with
    | nil => right; rfl
    | cons b bs2 =>
      by_cases hab : a.toNat < b.toNat
      · left; simp [lexLe, hab]
      · by_cases hba : b.toNat < a.toNat
        · right; simp [lexLe, hba]
        · rcases ih bs2 with h | h
          · left; simp [lexLe, hab, hba, h]
          · right; simp [lexLe, hab, hba, h]

theorem lexLe_cons_iff (a b : Char) (as bs : List Char) :
    lexLe (a :: as) (b :: bs) = true ↔
      a.toNat < b.toNat ∨ (a.toNat = b.toNat ∧ lexLe as bs = true) := by
  by_cases h1 : a.toNat < b.toNat
  · simp [lexLe, h1]
  · by_cases h2 : b.toNat < a.toNat
    · simp only [lexLe, if_neg h1, if_pos h2]
      constructor
      · intro h; cases h
      · intro h
        rcases h with h | ⟨h, _⟩ <;> omega
    · simp only [lexLe, if_neg h1, if_neg h2]
      constructor
      · intro h; exact Or.inr ⟨by omega, h⟩
      · intro h
        rcases h with h | ⟨_, h⟩
        · omega
        · exact h

theorem lexLe_trans (as : List Char) : ∀ bs cs : List Char,
    lexLe as bs = true → lexLe bs cs = true → lexLe as cs = true := by
  induction as with
  | nil => intro bs cs h1 h2; rfl
  | cons a as2 ih =>
    intro bs cs h1 h2
    cases bs with
    | nil => exact absurd h1 (by simp [lexLe])
    | cons b bs2 =>
      cases cs with
      | nil => exact absurd h2 (by simp [lexLe])
      | cons c cs2 =>
        rw [lexLe_cons_iff] at h1 h2 ⊢
        rcases h1 with h1 | ⟨e1, t1⟩ <;> rcases h2 with h2 | ⟨e2, t2⟩
        · exact Or.inl (by omega)
        · exact Or.inl (by omega)
        · exact Or.inl (by omega)
        · exact Or.inr ⟨by omega, ih bs2 cs2 t1 t2⟩

instance : IsTotal String (fun a b => strLe a b = true) :=
  ⟨fun a b => lexLe_total a.data b.data⟩

instance : IsTrans String (fun a b => strLe a b = true) :=
  ⟨fun a b c => lexLe_trans a.data b.data c.data⟩

/-! ### List helpers -/

theorem sortedKeys_length (d : List (String × ℕ)) :
    (sortedKeys d).length = d.length := by
  simp [sortedKeys, List.length_insertionSort]

theorem sortedKeys_perm (d : List (String × ℕ)) :
    (sortedKeys d).Perm (d.map Prod.fst) :=
  List.perm_insertionSort _ _

theorem sortedKeys_sorted (d : List (String × ℕ)) :
    List.Sorted (fun a b => strLe a b = true) (sortedKeys d) :=
  List.sorted_insertionSort _ _

theorem findIdx_lt_length_of_mem {m : ℚ} (l : List ℚ) : m ∈ l →
    l.findIdx (fun v => decide (v = m)) < l.length := by
  induction l with
  | nil => intro h; cases h
  | cons x xs ih =>
    intro h
    by_cases hx : x = m
    · simp [List.findIdx_cons, hx]
    · have hm : m ∈ xs := by
        rcases List.mem_cons.mp h with h2 | h2
        · exact absurd h2.symm hx
        · exact h2
      simpa [List.findIdx_cons, hx] using Nat.succ_lt_succ (ih hm)

theorem find_zip_snd {q : ℚ} (as : List String) : ∀ bs : List ℚ,
    as.length = bs.length → q ∈ bs →
    ∃ h : bs.findIdx (fun v => decide (v = q)) < as.length,
      (as.zip bs).find? (fun p => decide (p.2 = q)) =
        some (as.get ⟨bs.findIdx (fun v => decide (v = q)), h⟩, q) := by
  induction as with
  | nil =>
    intro bs hlen hq
    rw [List.length_eq_zero.mp hlen.symm] at hq
    cases hq
  | cons a as2 ih =>
    intro bs hlen hq
    cases bs with
    | nil => cases hq
    | cons b bs2 =>
      by_cases hb : b = q
      · refine ⟨by simp [List.findIdx_cons, hb], ?_⟩
        simp [List.findIdx_cons, hb, List.find?_cons]
      · have hq2 : q ∈ bs2 := by
          rcases List.mem_cons.mp hq with h | h
          · exact absurd h.symm hb
          · exact h
        have hlen2 : as2.length = bs2.length := by simpa using hlen
        obtain ⟨h2, hfind⟩ := ih bs2 hlen2 hq2
        refine ⟨by simpa [List.findIdx_cons, hb] using Nat.succ_lt_succ h2, ?_⟩
        simp [List.findIdx_cons, hb, List.find?_cons, hfind]

theorem dictGet_some_mem {β : Type} {d : List (String × β)} {k : String}
    {v : β} (h : dictGet d k = some v) : (k, v) ∈ d := by
  induction d with
  | nil => cases h
  | cons p rest ih =>
    obtain ⟨k1, v1⟩ := p
    by_cases hk : k1 = k
    · subst hk
      simp only [dictGet, if_pos rfl] at h
      simp [← Option.some.inj h]
    · simp only [dictGet, if_neg hk] at h
      exact List.mem_cons_of_mem _ (ih h)

theorem dictGet_zip_get (as : List String) : ∀ (bs : List ℚ) (i : ℕ)
    (hi : i < as.length), as.Nodup → as.length ≤ bs.length →
    ∃ hib : i < bs.length,
      dictGet (as.zip bs) (as.get ⟨i, hi⟩) = some (bs.get ⟨i, hib⟩) := by
  induction as with
  | nil => intro bs i hi; cases hi
  | cons a as2 ih =>
    intro bs i hi hnd hlen
    cases bs with
    | nil => exact absurd hlen (by simp)
    | cons b bs2 =>
      cases i with
      | zero => exact ⟨Nat.succ_pos _, by simp [dictGet]⟩
      | succ j =>
        have hj : j < as2.length := Nat.lt_of_succ_lt_succ hi
        have hlen2 : as2.length ≤ bs2.length := Nat.le_of_succ_le_succ hlen
        obtain ⟨hib, hget⟩ := ih bs2 j hj (List.Nodup.of_cons hnd) hlen2
        refine ⟨Nat.succ_lt_succ hib, ?_⟩
        have hne : a ≠ as2.get ⟨j, hj⟩ := by
          intro hcontra
          exact (List.nodup_cons.mp hnd).1 (hcontra ▸ List.get_mem as2 j hj)
        simp only [List.zip_cons_cons, List.get_cons_succ, dictGet, if_neg hne]
        exact hget

theorem reverseLookup_eq_none {d : List (String × ℕ)} {v : ℕ}
    (h : v ∉ d.map Prod.snd) : reverseLookup d v = none := by
  induction d with
  | nil => rfl
  | cons p rest ih =>
    obtain ⟨k1, v1⟩ := p
    simp only [List.map_cons, List.mem_cons, not_or] at h
    rw [reverseLookup, ih h.2]
    simp [Ne.symm h.1]

theorem reverseLookup_of_mem {d : List (String × ℕ)} {k : String} {v : ℕ}
    (hvals : (d.map Prod.snd).Nodup) (hmem : (k, v) ∈ d) :
    reverseLookup d v = some k := by
  induction d with
  | nil => cases hmem
  | cons p rest ih =>
    obtain ⟨k1, v1⟩ := p
    rw [List.map_cons, List.nodup_cons] at hvals
    rcases List.mem_cons.mp hmem with heq | hmem2
    · rw [Prod.mk.injEq] at heq
      obtain ⟨hk, hv⟩ := heq
      subst hk; subst hv
      rw [reverseLookup, reverseLookup_eq_none (by simpa using hvals.1)]
      simp
    · simp [reverseLookup, ih hvals.2 hmem2]

/-! ### Pipeline inversion -/

theorem evaluate_model_ok {b : Bundle} {data : List (String × ℚ)}
    {out : PredictionOutput} :
    evaluate_model b data = Except.ok out ↔
      evaluatePipeline b data = Except.ok out := by
  unfold evaluate_model
  cases hp : evaluatePipeline b data <;> simp

theorem evaluate_model_error {b : Bundle} {data : List (String × ℚ)}
    {e : PipelineError} :
    evaluate_model b data = Except.error (ServiceError.predictionError e) ↔
      evaluatePipeline b data = Except.error e := by
  unfold evaluate_model
  cases hp : evaluatePipeline b data <;> simp

theorem evaluatePipeline_ok_inv {b : Bundle} {data : List (String × ℚ)}
    {out : PredictionOutput}
    (h : evaluatePipeline b data = Except.ok out) :
    ∃ xs scaled lab pc conf,
      buildFeatureVector data b.metadata.feature_names = Except.ok xs ∧
      transform b.scaler xs = Except.ok scaled ∧
      reverseLookup b.metadata.class_mapping (b.model.predict scaled) =
        some lab ∧
      (sortedKeys b.metadata.class_mapping).length ≤
        (b.model.predict_proba scaled).length ∧
      pyInt lab = some pc ∧
      pyMax (b.model.predict_proba scaled) = some conf ∧
      out = { predicted_class := pc,
              prediction_probabilities :=
                (sortedKeys b.metadata.class_mapping).zip
                  (b.model.predict_proba scaled),
              confidence := conf } := by
  unfold evaluatePipeline at h
  cases hxs : buildFeatureVector data b.metadata.feature_names with
  | error e => rw [hxs] at h; exact Except.noConfusion h
  | ok xs =>
    simp only [hxs] at h
    cases hsc : transform b.scaler xs with
    | error e => rw [hsc] at h; exact Except.noConfusion h
    | ok scaled =>
      simp only [hsc] at h
      cases hrl : reverseLookup b.metadata.class_mapping
          (b.model.predict scaled) with
      | none => rw [hrl] at h; exact Except.noConfusion h
      | some lab =>
        simp only [hrl] at h
        by_cases hlen : (sortedKeys b.metadata.class_mapping).length ≤
            (b.model.predict_proba scaled).length
        · rw [if_pos hlen] at h
          cases hint : pyInt lab with
          | none => rw [hint] at h; exact Except.noConfusion h
          | some pc =>
            simp only [hint] at h
            cases hmax : pyMax (b.model.predict_proba scaled) with
            | none => rw [hmax] at h; exact Except.noConfusion h
            | some conf =>
              simp only [hmax] at h
              exact ⟨xs, scaled, lab, pc, conf, rfl, hsc, hrl, hlen, hint,
                hmax, (Except.ok.inj h).symm⟩
        · rw [if_neg hlen] at h
          exact Except.noConfusion h

theorem workerLoop_eq (b : Bundle) :
    ∀ (pending : List (ℕ × List (String × ℚ)))
      (completed : List (ℕ × Except ServiceError PredictionOutput)),
      workerLoop b pending completed =
        completed.reverse ++
          pending.map (fun p => (p.1, evaluate_model b p.2)) := by
  intro pending
  induction pending with
  | nil => intro completed; simp [workerLoop]
  | cons p rest ih =>
    intro completed
    obtain ⟨i, x⟩ := p
    rw [workerLoop, ih]
    simp

theorem runPool_eq (b : Bundle) (reqs : List (ℕ × List (String × ℚ))) :
    runPool b reqs = reqs.map (fun p => (p.1, evaluate_model b p.2)) := by
  rw [runPool, workerLoop_eq]
  rfl

/-! ### Feature-vector assembly failures -/

theorem firstMissing_none (record : List (String × ℚ)) :
    ∀ (names : List String) (k : String),
      firstMissing record names = some k → dictGet record k = none := by
  intro names
  induction names with
  | nil => intro k h; cases h
  | cons f rest ih =>
    intro k h
    cases hd : dictGet record f with
    | none =>
      simp only [firstMissing, hd] at h
      rw [← Option.some.inj h]
      exact hd
    | some v =>
      simp only [firstMissing, hd] at h
      exact ih k h

theorem buildFeatureVector_missing (record : List (String × ℚ)) :
    ∀ (names : List String) (k : String),
      firstMissing record names = some k →
      buildFeatureVector record names =
        Except.error (PipelineError.missingFeature k) := by
  intro names
  induction names with
  | nil => intro k h; cases h
  | cons f rest ih =>
    intro k h
    cases hd : dictGet record f with
    | none =>
      simp only [firstMissing, hd] at h
      simp only [buildFeatureVector, hd]
      rw [Option.some.inj h]
    | some v =>
      simp only [firstMissing, hd] at h
      simp only [buildFeatureVector, hd, ih k h]

/-! ### Claim theorems -/

/-- C4 counterexample: in the spec scenario — features `[f1, f2]`,
identity scaler, classifier probabilities `[0.3, 0.7]`, class mapping
`{"A": 0, "B": 1}`, input `{f1: 1, f2: 2}` — the pipeline does not
return the successful result the claim expects.  Line 198 of app.py
applies `int` to the decoded label and `int("B")` raises, so the run
fails with the catch-all prediction error. -/
theorem C4_counterexample :
    evaluate_model c4Bundle c4Record =
      Except.error (ServiceError.predictionError
        (PipelineError.invalidIntLiteral "B")) := by decide

/-- C4 (amended): the scenario with the original labels `{"A": 0,
"B": 1}` fails with the catch-all prediction error (previous theorem);
with integer-parseable labels `{"1": 0, "2": 1}` the same input yields
the expected shape of result: `predicted_class = 2` (the label with
probability 0.7), probabilities `{"1": 0.3, "2": 0.7}`, confidence
0.7. -/
theorem C4_amended_thm :
    evaluate_model alignedBundle c4Record = Except.ok alignedOut ∧
    alignedOut.predicted_class = 2 ∧
    dictGet alignedOut.prediction_probabilities "1" = some q3 ∧
    dictGet alignedOut.prediction_probabilities "2" = some q7 ∧
    alignedOut.confidence = q7 := by decide

/-- C5: when any artifact component is unloaded, `predict` fails with
the not-ready error (surfaced as the 503 service-unavailable condition,
app.py 254-258) and submits zero tasks to the worker pool. -/
theorem C5_not_ready_no_pool (s : ServerState) (x : List (String × ℚ))
    (h : s.model = none ∨ s.scaler = none ∨ s.metadata = none) :
    predict s x = (Except.error ServiceError.notReady, 0) := by
  obtain ⟨om, osc, omd⟩ := s
  cases om <;> cases osc <;> cases omd <;> simp_all [predict]

/-- C5 witness: the freshly started process with nothing loaded. -/
theorem C5_witness :
    predict ⟨none, none, none⟩ [] =
      (Except.error ServiceError.notReady, 0) :=
  C5_not_ready_no_pool ⟨none, none, none⟩ [] (Or.inl rfl)

/-- C6: if some feature name demanded by the metadata is absent from the
input record, feature-vector assembly fails with the missing-feature
error naming the first absent key — no partial vector is produced — and
the whole pipeline surfaces it as a prediction error whose cause is the
distinct missing-feature kind (not the not-ready error and not a
validation failure, which the excluded routing layer rejects before the
core is reached). -/
theorem C6_missing_feature (b : Bundle) (record : List (String × ℚ))
    (k : String)
    (hk : firstMissing record b.metadata.feature_names = some k) :
    buildFeatureVector record b.metadata.feature_names =
      Except.error (PipelineError.missingFeature k) ∧
    dictGet record k = none ∧
    evaluate_model b record =
      Except.error (ServiceError.predictionError
        (PipelineError.missingFeature k)) := by
  have hbuild := buildFeatureVector_missing record _ k hk
  refine ⟨hbuild, firstMissing_none record _ k hk, ?_⟩
  rw [evaluate_model_error]
  simp only [evaluatePipeline, hbuild]

/-- C6 witness: metadata demanding a feature `fX` the record lacks. -/
theorem C6_witness :
    evaluate_model c6Bundle c4Record =
      Except.error (ServiceError.predictionError
        (PipelineError.missingFeature "fX")) ∧
    dictGet c4Record "fX" = none := by
  have h := C6_missing_feature c6Bundle c4Record "fX" (by decide)
  exact ⟨h.2.2, h.2.1⟩

/-- C8: for every class mapping whose encoded indices are duplicate-free
(the spec's bijectivity invariant), decoding the encoded index of any
label through the reverse mapping built on app.py line 190 returns that
label: encode-then-decode is the identity. -/
theorem C8_encode_decode (m : List (String × ℕ)) (k : String) (v : ℕ)
    (hvals : (m.map Prod.snd).Nodup) (henc : dictGet m k = some v) :
    reverseLookup m v = some k :=
  reverseLookup_of_mem hvals (dictGet_some_mem henc)

/-- C8 witness: the mapping `{"1": 0, "2": 1}` at label "1". -/
theorem C8_witness : reverseLookup [("1", 0), ("2", 1)] 0 = some "1" :=
  C8_encode_decode [("1", 0), ("2", 1)] "1" 0 (by decide) (by decide)

/-- C9: with the artifact bundle fixed, the prediction pipeline is a
pure function of the request, so a pool of size 1 draining any request
queue returns, at every position, exactly the result computed from that
position's own input (paired with that request's own identifier): no
result is swapped between requests, and re-running any request gives the
identical result because `evaluate_model` is a function of the bundle
and the record alone. -/
theorem C9_no_result_swap (b : Bundle)
    (reqs : List (ℕ × List (String × ℚ))) :
    (runPool b reqs).length = reqs.length ∧
    ∀ j : ℕ, (runPool b reqs)[j]? =
      reqs[j]?.map (fun p => (p.1, evaluate_model b p.2)) := by
  refine ⟨?_, fun j => ?_⟩
  · rw [runPool_eq]; simp
  · rw [runPool_eq, List.getElem?_map]

/-- C2: whenever the pipeline succeeds — under the spec's bundle
invariant that the classifier emits one probability per class of the
mapping — the confidence field is exactly the maximum over the values of
the returned probability mapping (app.py 195 and 200 draw both from the
same `prediction_proba` vector). -/
theorem C2_confidence_is_max (b : Bundle) (record : List (String × ℚ))
    (out : PredictionOutput)
    (hK : ∀ v, (b.model.predict_proba v).length =
      b.metadata.class_mapping.length)
    (hok : evaluate_model b record = Except.ok out) :
    pyMax (out.prediction_probabilities.map Prod.snd) =
      some out.confidence := by
  obtain ⟨xs, scaled, lab, pc, conf, h1, h2, h3, h4, h5, h6, h7⟩ :=
    evaluatePipeline_ok_inv (evaluate_model_ok.mp hok)
  subst h7
  have hlenq : (sortedKeys b.metadata.class_mapping).length =
      (b.model.predict_proba scaled).length := by
    rw [sortedKeys_length, hK scaled]
  show pyMax (((sortedKeys b.metadata.class_mapping).zip
      (b.model.predict_proba scaled)).map Prod.snd) = some conf
  rw [List.map_snd_zip _ _ (le_of_eq hlenq.symm)]
  exact h6

/-- C2 witness: the aligned two-class scenario bundle. -/
theorem C2_witness :
    pyMax (alignedOut.prediction_probabilities.map Prod.snd) =
      some alignedOut.confidence :=
  C2_confidence_is_max alignedBundle c4Record alignedOut
    (fun v => rfl) (by decide)

/-- C7: the artifact state is published atomically with respect to its
readers.  Along every reachable state of the process — starting from the
empty globals, stepping through the three sequential publishes of
`load_model_components` (which may stop early on failure) and any number
of request-serving steps, which never write — the publishes happen in
load order, and every reader either observes "not ready" (health check
unhealthy, `predict` refusing with the not-ready error before touching
the pool) or observes all three components fully published.  The step
relation contains no other mutation: the startup load is the only writer
of this state. -/
theorem C7_atomic_publish (s : ServerState) (h : Reachable s) :
    ((s.scaler.isSome = true → s.model.isSome = true) ∧
      (s.metadata.isSome = true →
        s.model.isSome = true ∧ s.scaler.isSome = true)) ∧
    ((is_ready s = false ∧ health_check s = "unhealthy" ∧
        ∀ x, predict s x = (Except.error ServiceError.notReady, 0)) ∨
      (∃ m sc md, s = ⟨some m, some sc, some md⟩ ∧ is_ready s = true ∧
        health_check s = "healthy" ∧
        ∀ x, predict s x = (evaluate_model ⟨m, sc, md⟩ x, 1))) := by
  constructor
  · induction h with
    | refl => simp [initialState]
    | tail hsteps hstep ih =>
      cases hstep with
      | publishModel m => simp
      | publishScaler m sc => simp
      | publishMetadata m sc md => simp
      | serve s2 => exact ih
  · obtain ⟨om, osc, omd⟩ := s
    cases om <;> cases osc <;> cases omd
    case some.some.some m sc md =>
      right
      exact ⟨m, sc, md, rfl, rfl, rfl, fun x => rfl⟩
    all_goals left; exact ⟨rfl, rfl, fun x => rfl⟩

/-- C7 witness: the fully loaded state reached by the three publish
steps. -/
theorem C7_witness :
    Reachable readyState ∧ is_ready readyState = true ∧
      health_check readyState = "healthy" := by
  have hr : Reachable readyState :=
    Relation.ReflTransGen.tail
      (Relation.ReflTransGen.tail
        (Relation.ReflTransGen.single (Step.publishModel wModel))
        (Step.publishScaler wModel wScaler))
      (Step.publishMetadata wModel wScaler ⟨["f1", "f2"], [("1", 0), ("2", 1)]⟩)
  rcases (C7_atomic_publish readyState hr).2 with ⟨hfalse, _, _⟩ | h
  · exact absurd hfalse (by decide)
  · obtain ⟨m, sc, md, _, hready, hhealth, _⟩ := h
    exact ⟨hr, hready, hhealth⟩

/-- C10: a successful response always carries `predicted_class` equal to
`int` of the decoded original label (app.py 198), and whenever that label
is not parseable as a decimal integer the pipeline fails with the
catch-all prediction error instead of returning a result. -/
theorem C10_int_label (b : Bundle) (record : List (String × ℚ))
    (xs scaled : List ℚ) (lab : String)
    (hxs : buildFeatureVector record b.metadata.feature_names = Except.ok xs)
    (hsc : transform b.scaler xs = Except.ok scaled)
    (hrl : reverseLookup b.metadata.class_mapping (b.model.predict scaled) =
      some lab)
    (hlen : (sortedKeys b.metadata.class_mapping).length ≤
      (b.model.predict_proba scaled).length) :
    (pyInt lab = none →
      evaluate_model b record =
        Except.error (ServiceError.predictionError
          (PipelineError.invalidIntLiteral lab))) ∧
    (∀ out, evaluate_model b record = Except.ok out →
      pyInt lab = some out.predicted_class) := by
  constructor
  · intro hnone
    rw [evaluate_model_error]
    simp only [evaluatePipeline, hxs, hsc, hrl]
    rw [if_pos hlen]
    simp only [hnone]
  · intro out hok
    obtain ⟨xs2, scaled2, lab2, pc, conf, h1, h2, h3, h4, h5, h6, h7⟩ :=
      evaluatePipeline_ok_inv (evaluate_model_ok.mp hok)
    have e1 : xs2 = xs := Except.ok.inj (h1.symm.trans hxs)
    subst e1
    have e2 : scaled2 = scaled := Except.ok.inj (h2.symm.trans hsc)
    subst e2
    have e3 : lab2 = lab := Option.some.inj (h3.symm.trans hrl)
    subst e3
    subst h7
    exact h5

/-- C10 witness: the scenario bundle whose decoded label "B" has no
integer reading. -/
theorem C10_witness :
    evaluate_model c4Bundle c4Record =
      Except.error (ServiceError.predictionError
        (PipelineError.invalidIntLiteral "B")) := by
  have h := C10_int_label c4Bundle c4Record [1, 2] alignedScaled "B"
    (by decide) rfl (by decide) (by decide)
  exact h.1 (by decide)

/-- C1 counterexample: a prediction that succeeds on a valid bijective
class mapping whose listed order disagrees with the sorted order of its
labels.  The mapping is `{"1": 1, "2": 0}` and the classifier (whose
`predict` is the first argmax of its `predict_proba`, as the spec
contract requires) emits `[0.7, 0.3]`.  The run succeeds with
`predicted_class = 2`, yet the key of the probability mapping holding
the maximum is "1": the claim's equality fails because app.py line 195
pairs sorted labels with probabilities positionally while line 191
decodes through the mapping. -/
theorem C1_counterexample :
    evaluate_model cexBundle cexRecord = Except.ok cexOut ∧
    cexModel.predict [0] = argmaxFirst (cexModel.predict_proba [0]) ∧
    firstMaxKey cexOut.prediction_probabilities = some "1" ∧
    pyInt "1" = some 1 ∧
    cexOut.predicted_class = 2 ∧
    (2 : ℤ) ≠ 1 := by decide

/-- C1 (amended): under the spec's classifier contract — `predict`
returns the first encoded index achieving the maximum of
`predict_proba`, whose length is the number of classes — and the
additional alignment assumption that decoding encoded index `i` yields
the i-th label in sorted order, every successful prediction has
`predicted_class` equal to the integer reading of the key of the
probability mapping holding the maximum value (first such key on
ties). -/
theorem C1_amended_thm (b : Bundle) (record : List (String × ℚ))
    (out : PredictionOutput)
    (hpred : ∀ v, b.model.predict v = argmaxFirst (b.model.predict_proba v))
    (halign : ∀ i (hi : i < (sortedKeys b.metadata.class_mapping).length),
      reverseLookup b.metadata.class_mapping i =
        some ((sortedKeys b.metadata.class_mapping).get ⟨i, hi⟩))
    (hK : ∀ v, (b.model.predict_proba v).length =
      b.metadata.class_mapping.length)
    (hok : evaluate_model b record = Except.ok out) :
    ∃ key, firstMaxKey out.prediction_probabilities = some key ∧
      pyInt key = some out.predicted_class := by
  obtain ⟨xs, scaled, lab, pc, conf, h1, h2, h3, h4, h5, h6, h7⟩ :=
    evaluatePipeline_ok_inv (evaluate_model_ok.mp hok)
  subst h7
  have hlenq : (sortedKeys b.metadata.class_mapping).length =
      (b.model.predict_proba scaled).length := by
    rw [sortedKeys_length, hK scaled]
  have hconf_mem : conf ∈ b.model.predict_proba scaled := pyMax_mem h6
  obtain ⟨hjlt, hfind⟩ :=
    find_zip_snd (sortedKeys b.metadata.class_mapping)
      (b.model.predict_proba scaled) hlenq hconf_mem
  have hargmax : b.model.predict scaled =
      (b.model.predict_proba scaled).findIdx (fun v => decide (v = conf)) := by
    rw [hpred scaled, argmaxFirst, h6]
  rw [hargmax] at h3
  have hlab : lab = (sortedKeys b.metadata.class_mapping).get
      ⟨(b.model.predict_proba scaled).findIdx (fun v => decide (v = conf)),
        hjlt⟩ :=
    Option.some.inj (h3.symm.trans (halign _ hjlt))
  refine ⟨lab, ?_, ?_⟩
  · show firstMaxKey ((sortedKeys b.metadata.class_mapping).zip
      (b.model.predict_proba scaled)) = some lab
    have hsnd : ((sortedKeys b.metadata.class_mapping).zip
        (b.model.predict_proba scaled)).map Prod.snd =
        b.model.predict_proba scaled :=
      List.map_snd_zip _ _ (le_of_eq hlenq.symm)
    simp only [firstMaxKey, hsnd, h6, hfind]
    rw [hlab]
    rfl
  · exact h5

/-- C1 amended witness: the aligned two-class bundle. -/
theorem C1_amended_witness :
    ∃ key, firstMaxKey alignedOut.prediction_probabilities = some key ∧
      pyInt key = some alignedOut.predicted_class := by
  apply C1_amended_thm alignedBundle c4Record alignedOut
  · intro v
    show 1 = argmaxFirst [q3, q7]
    decide
  · decide
  · intro v; rfl
  · decide

/-- C3 counterexample: with the same misaligned (but valid, bijective)
mapping `{"1": 1, "2": 0}` and classifier vector `[0.7, 0.3]`, the
returned mapping assigns label "1" the probability 0.7, but the
probability the classifier assigned to the encoded index of "1" — index
1 — is 0.3: app.py line 195 keys the i-th sorted label to
`prediction_proba[i]` regardless of that label's own encoded index. -/
theorem C3_counterexample :
    evaluate_model cexBundle cexRecord = Except.ok cexOut ∧
    dictGet cexBundle.metadata.class_mapping "1" = some 1 ∧
    cexModel.predict_proba [0] = [q7, q3] ∧
    dictGet cexOut.prediction_probabilities "1" = some q7 ∧
    q7 ≠ q3 := by decide

/-- C3 (amended): for every successful prediction — on every bundle,
aligned or not — the probability mapping has exactly one entry per
original class label, keyed by the label string, in sorted label order
(it is the sorted key list of the class mapping, a sorted permutation
of the original labels); and under the additional alignment assumption
that the class mapping has duplicate-free labels and encodes the i-th
sorted label as index `i`, each label is mapped to the probability the
classifier assigned to that label's own encoded index. -/
theorem C3_amended_thm (b : Bundle) (record : List (String × ℚ))
    (out : PredictionOutput) (xs scaled : List ℚ)
    (hxs : buildFeatureVector record b.metadata.feature_names = Except.ok xs)
    (hsc : transform b.scaler xs = Except.ok scaled)
    (hok : evaluate_model b record = Except.ok out) :
    out.prediction_probabilities.map Prod.fst =
      sortedKeys b.metadata.class_mapping ∧
    List.Sorted (fun a c => strLe a c = true)
      (out.prediction_probabilities.map Prod.fst) ∧
    (out.prediction_probabilities.map Prod.fst).Perm
      (b.metadata.class_mapping.map Prod.fst) ∧
    ((b.metadata.class_mapping.map Prod.fst).Nodup →
      (∀ i (hi : i < (sortedKeys b.metadata.class_mapping).length),
        dictGet b.metadata.class_mapping
          ((sortedKeys b.metadata.class_mapping).get ⟨i, hi⟩) = some i) →
      ∀ lab i, dictGet b.metadata.class_mapping lab = some i →
        ∃ hi : i < (b.model.predict_proba scaled).length,
          dictGet out.prediction_probabilities lab =
            some ((b.model.predict_proba scaled).get ⟨i, hi⟩)) := by
  obtain ⟨xs2, scaled2, lab2, pc, conf, h1, h2, h3, h4, h5, h6, h7⟩ :=
    evaluatePipeline_ok_inv (evaluate_model_ok.mp hok)
  have e1 : xs2 = xs := Except.ok.inj (h1.symm.trans hxs)
  rw [e1] at h2
  have e2 : scaled2 = scaled := Except.ok.inj (h2.symm.trans hsc)
  rw [e2] at h3 h4 h6 h7
  subst h7
  have hA : ((sortedKeys b.metadata.class_mapping).zip
      (b.model.predict_proba scaled)).map Prod.fst =
      sortedKeys b.metadata.class_mapping :=
    List.map_fst_zip _ _ h4
  refine ⟨hA, ?_, ?_, ?_⟩
  · show List.Sorted (fun a c => strLe a c = true)
      (((sortedKeys b.metadata.class_mapping).zip
        (b.model.predict_proba scaled)).map Prod.fst)
    rw [hA]
    exact sortedKeys_sorted _
  · show (((sortedKeys b.metadata.class_mapping).zip
      (b.model.predict_proba scaled)).map Prod.fst).Perm
      (b.metadata.class_mapping.map Prod.fst)
    rw [hA]
    exact sortedKeys_perm _
  · intro hkeys halignD lab i hd
    have hlabmem : lab ∈ b.metadata.class_mapping.map Prod.fst :=
      List.mem_map_of_mem Prod.fst (dictGet_some_mem hd)
    have hlabmem2 : lab ∈ sortedKeys b.metadata.class_mapping :=
      ((sortedKeys_perm b.metadata.class_mapping).mem_iff).mpr hlabmem
    obtain ⟨⟨j, hj⟩, hget⟩ := List.get_of_mem hlabmem2
    have hji : i = j := by
      have halj := halignD j hj
      rw [hget, hd] at halj
      exact Option.some.inj halj
    subst hji
    have hnd : (sortedKeys b.metadata.class_mapping).Nodup :=
      ((sortedKeys_perm b.metadata.class_mapping).nodup_iff).mpr hkeys
    obtain ⟨hib, hdg⟩ := dictGet_zip_get (sortedKeys b.metadata.class_mapping)
      (b.model.predict_proba scaled) i hj hnd h4
    refine ⟨hib, ?_⟩
    show dictGet ((sortedKeys b.metadata.class_mapping).zip
      (b.model.predict_proba scaled)) lab =
      some ((b.model.predict_proba scaled).get ⟨i, hib⟩)
    rw [← hget]
    exact hdg

/-- C3 amended witness: the aligned two-class bundle; label "2" (encoded
index 1) carries probability 0.7, the second entry of the classifier's
vector. -/
theorem C3_amended_witness :
    alignedOut.prediction_probabilities.map Prod.fst =
      sortedKeys alignedBundle.metadata.class_mapping ∧
    ∃ hi : (1 : ℕ) < (wModel.predict_proba alignedScaled).length,
      dictGet alignedOut.prediction_probabilities "2" =
        some ((wModel.predict_proba alignedScaled).get ⟨1, hi⟩) := by
  have h := C3_amended_thm alignedBundle c4Record alignedOut [1, 2]
    alignedScaled (by decide) rfl (by decide)
  exact ⟨h.1, h.2.2.2 (by decide) (by decide) "2" 1 (by decide)⟩

end SfTest
